import Mathlib

/-!
# Stream state of `pkg/server/stream/v3/stream.go`

A shallow embedding of `StreamState` and its methods.

Go maps are modelled as immutable values: `none` is the nil map, `some t` a
map holding the finite table `t`.  Reading a key of a nil map or a missing key
gives the zero value of the element type; writing a key of a nil map panics.
A method that can panic returns `Option StreamState`, `none` standing for the
panic (the receiver is left untouched by a panicking call, since the failing
assignment is the only write).

Aliasing between a stored map and the caller's reference to it is outside the
model: a stored map is the value it had when it was stored.
-/

namespace Stream

/-- Values of a Go `map[string]V`: `none` is the nil map. -/
abbrev GoMap (V : Type) := Option (Finmap (fun _ : String => V))

namespace GoMap

variable {V : Type}

/-- The expression `make(map[string]V)` (equally the literal `map[string]V{}`):
an empty map that is not nil. -/
def make : GoMap V := some ∅

/-- The comma-ok read `v, ok := m[k]`; a nil map has no keys. -/
def get? (m : GoMap V) (k : String) : Option V :=
  match m with
  | none => none
  | some t => t.lookup k

/-- The read `m[k]`, with `zero` the zero value of the element type. -/
def index (m : GoMap V) (k : String) (zero : V) : V :=
  (m.get? k).getD zero

/-- The assignment `m[k] = v`; it panics (`none`) on a nil map. -/
def assign (m : GoMap V) (k : String) (v : V) : Option (GoMap V) :=
  match m with
  | none => none
  | some t => some (some (t.insert k v))

/-- Whether `k` is a key of `m`. -/
def hasKey (m : GoMap V) (k : String) : Bool :=
  (m.get? k).isSome

/-- The keys of `m`; a nil map has none. -/
def keys (m : GoMap V) : Finset String :=
  match m with
  | none => ∅
  | some t => t.keys

/-- The value of `len(m)`. -/
def len (m : GoMap V) : Nat :=
  match m with
  | none => 0
  | some t => t.keys.card

end GoMap

/-- A `map[string]string` from resource name to version token. -/
abbrev VersionMap := GoMap String

/-- A `map[string]struct{}`, used as a set of resource names. -/
abbrev NameSet := GoMap Unit

/-- StreamState will keep track of resource state per type on a stream. -/
structure StreamState where
  wildcard : Bool
  resourceVersions : VersionMap
  knownResourceNames : GoMap NameSet
  first : Bool
  ordered : Bool
  deriving DecidableEq

/-- The zero value `StreamState{}`: every map nil, every flag false. -/
def zeroStreamState : StreamState :=
  { wildcard := false, resourceVersions := none, knownResourceNames := none,
    first := false, ordered := false }

/-- NewStreamState initializes a stream state with empty defaults. -/
def NewStreamState (wildcard : Bool) (initialResourceVersions : VersionMap) : StreamState :=
  let state : StreamState :=
    { wildcard := wildcard
      resourceVersions := initialResourceVersions
      first := true
      knownResourceNames := GoMap.make
      ordered := false }
  if initialResourceVersions = none then
    { state with resourceVersions := GoMap.make }
  else
    state

/-- GetResourceVersions returns the stored version map. -/
def GetResourceVersions (s : StreamState) : VersionMap :=
  s.resourceVersions

/-- SetResourceVersions stores the version map and clears the flag `first`. -/
def SetResourceVersions (s : StreamState) (resourceVersions : VersionMap) : StreamState :=
  let s1 := { s with first := false }
  { s1 with resourceVersions := resourceVersions }

/-- IsFirst returns the flag `first`. -/
def IsFirst (s : StreamState) : Bool :=
  s.first

/-- IsWildcard returns the flag `wildcard`. -/
def IsWildcard (s : StreamState) : Bool :=
  s.wildcard

/-- IsOrdered stores its argument in `ordered` and returns it: the pair is
the returned value and the receiver after the call. -/
def IsOrdered (s : StreamState) (ordered : Bool) : Bool × StreamState :=
  (ordered, { s with ordered := ordered })

/-- SetKnownResourceNames runs `s.knownResourceNames[url] = names`. -/
def SetKnownResourceNames (s : StreamState) (url : String) (names : NameSet) :
    Option StreamState :=
  match s.knownResourceNames.assign url names with
  | none => none
  | some k => some { s with knownResourceNames := k }

/-- The loop of SetKnownResourceNamesAsList: `m[name] = struct{}{}` for each
name of the slice in turn, starting from `m`. -/
def namesLoop (m : Finmap (fun _ : String => Unit)) (names : List String) :
    Finmap (fun _ : String => Unit) :=
  names.foldl (fun acc name => acc.insert name ()) m

/-- SetKnownResourceNamesAsList builds a fresh set from the slice and stores it
under `url`. -/
def SetKnownResourceNamesAsList (s : StreamState) (url : String) (names : List String) :
    Option StreamState :=
  let m : NameSet := some (namesLoop ∅ names)
  match s.knownResourceNames.assign url m with
  | none => none
  | some k => some { s with knownResourceNames := k }

/-- GetKnownResourceNames runs `s.knownResourceNames[url]`; the zero value of
the element type is the nil map. -/
def GetKnownResourceNames (s : StreamState) (url : String) : NameSet :=
  s.knownResourceNames.index url none

/-- One method call on a stream state, with its arguments. -/
inductive Op where
  | setResourceVersions (resourceVersions : VersionMap)
  | isOrdered (ordered : Bool)
  | setKnownResourceNames (url : String) (names : NameSet)
  | setKnownResourceNamesAsList (url : String) (names : List String)
  | getResourceVersions
  | isFirst
  | isWildcard
  | getKnownResourceNames (url : String)
  deriving DecidableEq

/-- Whether the call is a call of SetResourceVersions. -/
def Op.isSetResourceVersions : Op → Bool
  | .setResourceVersions _ => true
  | _ => false

/-- The receiver after one call (`none` when the call panics); what a call
returns is dropped. -/
def Op.step (s : StreamState) : Op → Option StreamState
  | .setResourceVersions v => some (SetResourceVersions s v)
  | .isOrdered o => some (IsOrdered s o).2
  | .setKnownResourceNames url names => SetKnownResourceNames s url names
  | .setKnownResourceNamesAsList url names => SetKnownResourceNamesAsList s url names
  | .getResourceVersions => some s
  | .isFirst => some s
  | .isWildcard => some s
  | .getKnownResourceNames _ => some s

/-- The receiver after a sequence of calls, made in order; a panic ends it. -/
def run (s : StreamState) : List Op → Option StreamState
  | [] => some s
  | op :: ops => (op.step s).bind (fun s1 => run s1 ops)

/-- The receiver as it stands once a call is over: the call's new state, or
the old state when the call panicked before writing. -/
def after (s : StreamState) (r : Option StreamState) : StreamState :=
  r.getD s

/-- The receiver after a run of IsOrdered calls, made in order. -/
def declareAll (s : StreamState) (os : List Bool) : StreamState :=
  os.foldl (fun st o => (IsOrdered st o).2) s

/-- The name set holding exactly the names of `names`, as a map literal. -/
def nameSetOf (names : List String) : NameSet :=
  some (names.foldr (fun name t => t.insert name ()) ∅)

/-- A sample state: a fresh wildcard state on which the names a and b were
stored for the type URL type.a. -/
def sampleState : StreamState :=
  after (NewStreamState true none)
    (SetKnownResourceNames (NewStreamState true none) "type.a" (nameSetOf ["a", "b"]))

/-- The argument of the call when it is a call of SetResourceVersions. -/
def Op.versionsArg? : Op → Option VersionMap
  | .setResourceVersions v => some v
  | _ => none

/-- The argument of the most recent SetResourceVersions call of a sequence of
calls, `none` when the sequence has no such call. -/
def lastVersionsArg? : List Op → Option VersionMap
  | [] => none
  | op :: ops => (lastVersionsArg? ops).or op.versionsArg?

/-- Whether the call passes the type URL `url` to SetKnownResourceNames or to
SetKnownResourceNamesAsList. -/
def Op.setsKnownNamesOf (url : String) : Op → Bool
  | .setKnownResourceNames u _ => u == url
  | .setKnownResourceNamesAsList u _ => u == url
  | _ => false

/-! ## The reconciler

The reconciliation algorithms are not part of `stream.go`; they are modelled
from sections 4.2, 4.3 and 6 of the specification. -/

/-- Modelled from the spec: one resource of the external snapshot store, the
pair (content, versionToken) of the boundary `getResources`. -/
structure Resource where
  content : String
  version : String
  deriving DecidableEq

/-- Modelled from the spec: the result of the snapshot read
`getResources(typeURL)`, a mapping from name to (content, versionToken). -/
abbrev Snapshot := Finmap (fun _ : String => Resource)

/-- Modelled from the spec: the snapshot store, read by type URL; a type for
which no snapshot is available has no resources. -/
abbrev SnapshotStore := String → Snapshot

/-- Modelled from the spec: the Delta fields of the incoming request, a type
URL and the names to subscribe to and to unsubscribe from. -/
structure DeltaRequest where
  typeURL : String
  subscribe : Finset String
  unsubscribe : Finset String
  deriving DecidableEq

/-- Modelled from the spec: the Delta response, the resources to send, in no
particular order, and the removed names. -/
structure DeltaResponse where
  typeURL : String
  resources : Multiset (String × Resource)
  removed : Finset String
  deriving DecidableEq

/-- Modelled from the spec: step 1 of the Delta path, the effective interest
set (previous interest set ∪ newly subscribed names) − newly unsubscribed
names; for a wildcard subscriber it is all names in the snapshot. -/
def effectiveInterest (wildcard : Bool) (previous : Finset String) (req : DeltaRequest)
    (snapshot : Snapshot) : Finset String :=
  if wildcard then snapshot.keys else (previous ∪ req.subscribe) \ req.unsubscribe

/-- Modelled from the spec: step 2 of the Delta path. A name of the effective
interest set that is present in the snapshot is in the resources list when its
snapshot version differs from, or is absent from, the current versions. -/
def deltaResources (interest : Finset String) (current : VersionMap) (snapshot : Snapshot) :
    Multiset (String × Resource) :=
  (snapshot.entries.filter
    (fun e => e.1 ∈ interest ∧ current.get? e.1 ≠ some e.2.version)).map
    (fun e => (e.1, e.2))

/-- Modelled from the spec: step 3 of the Delta path. A name present in the
current versions but absent from the snapshot, or explicitly unsubscribed, is
in the removed list. -/
def deltaRemoved (current : VersionMap) (req : DeltaRequest) (snapshot : Snapshot) :
    Finset String :=
  current.keys.filter (fun name => name ∉ snapshot) ∪ req.unsubscribe

/-- Modelled from the spec: the Delta reconciliation of section 4.3, steps 1
to 3, for a stream state, the stream's previous interest set, a request and the
snapshot store. -/
def deltaReconcile (s : StreamState) (previous : Finset String) (req : DeltaRequest)
    (store : SnapshotStore) : DeltaResponse :=
  let snapshot := store req.typeURL
  let interest := effectiveInterest (IsWildcard s) previous req snapshot
  { typeURL := req.typeURL
    resources := deltaResources interest (GetResourceVersions s) snapshot
    removed := deltaRemoved (GetResourceVersions s) req snapshot }

/-- Modelled from the spec: the SOTW response, the complete resource set of a
type for the stream, in no particular order. -/
structure SotwResponse where
  typeURL : String
  resources : Multiset (String × Resource)
  deriving DecidableEq

/-- Modelled from the spec: step 2 of the SOTW path, the snapshot resources of
the type filtered to the known names of the type, or all of them for a
wildcard subscriber. -/
def sotwResources (s : StreamState) (typeURL : String) (snapshot : Snapshot) :
    Multiset (String × Resource) :=
  (snapshot.entries.filter
    (fun e => IsWildcard s = true ∨ (GetKnownResourceNames s typeURL).hasKey e.1 = true)).map
    (fun e => (e.1, e.2))

/-- Modelled from the spec: the set of (name, version) pairs implied by the
last recorded versions. -/
def recordedPairs (current : VersionMap) : Multiset (String × String) :=
  match current with
  | none => 0
  | some t => t.entries.map (fun e => (e.1, e.2))

/-- Modelled from the spec: the SOTW reconciliation of section 4.2. Step 1
stores the requested names for the type (a wildcard subscriber skips it), step
2 computes the resource set, and step 4 sends no response when that set is
identical by name and version to the recorded one, unless the state is first.
The result is the state after step 1 and the response, if one is sent; `none`
is the panic of step 1 on a nil map. -/
def sotwReconcile (s : StreamState) (typeURL : String) (requested : NameSet)
    (store : SnapshotStore) : Option (StreamState × Option SotwResponse) :=
  match (if IsWildcard s = true then some s else SetKnownResourceNames s typeURL requested) with
  | none => none
  | some s1 =>
    let resources := sotwResources s1 typeURL (store typeURL)
    if resources.map (fun r => (r.1, r.2.version)) = recordedPairs (GetResourceVersions s1) ∧
        IsFirst s1 = false then
      some (s1, none)
    else
      some (s1, some { typeURL := typeURL, resources := resources })

end Stream

/-! # Generated messages of `envoy/admin/v4alpha/server_info.pb.go`

The enum types are `int32`, modelled by `Int`. A pointer to a message is an
`Option`, `none` being the nil pointer, and so is a slice, `none` being the nil
slice. The message type `duration.Duration` of the imported package is a type
parameter `D`. -/

namespace envoy_admin_v4alpha

/-- A generated table of names, a `map[int32]string` made by a map literal. -/
abbrev NameTable := Finmap (fun _ : Int => String)

/-- A generated table of values, a `map[string]int32` made by a map literal. -/
abbrev ValueTable := Finmap (fun _ : String => Int)

/-- The read `t[k]` of a name table; a missing key gives the empty string. -/
def NameTable.index (t : NameTable) (k : Int) : String :=
  (t.lookup k).getD ""

/-- The read `t[n]` of a value table; a missing key gives zero. -/
def ValueTable.index (t : ValueTable) (n : String) : Int :=
  (t.lookup n).getD 0

abbrev ServerInfo_State := Int

def ServerInfo_LIVE : ServerInfo_State := 0
def ServerInfo_DRAINING : ServerInfo_State := 1
def ServerInfo_PRE_INITIALIZING : ServerInfo_State := 2
def ServerInfo_INITIALIZING : ServerInfo_State := 3

def ServerInfo_State_name : NameTable :=
  List.toFinmap [⟨0, "LIVE"⟩, ⟨1, "DRAINING"⟩, ⟨2, "PRE_INITIALIZING"⟩, ⟨3, "INITIALIZING"⟩]

def ServerInfo_State_value : ValueTable :=
  List.toFinmap [⟨"LIVE", 0⟩, ⟨"DRAINING", 1⟩, ⟨"PRE_INITIALIZING", 2⟩, ⟨"INITIALIZING", 3⟩]

abbrev CommandLineOptions_IpVersion := Int

def CommandLineOptions_v4 : CommandLineOptions_IpVersion := 0
def CommandLineOptions_v6 : CommandLineOptions_IpVersion := 1

def CommandLineOptions_IpVersion_name : NameTable :=
  List.toFinmap [⟨0, "v4"⟩, ⟨1, "v6"⟩]

def CommandLineOptions_IpVersion_value : ValueTable :=
  List.toFinmap [⟨"v4", 0⟩, ⟨"v6", 1⟩]

abbrev CommandLineOptions_Mode := Int

def CommandLineOptions_Serve : CommandLineOptions_Mode := 0
def CommandLineOptions_Validate : CommandLineOptions_Mode := 1
def CommandLineOptions_InitOnly : CommandLineOptions_Mode := 2

def CommandLineOptions_Mode_name : NameTable :=
  List.toFinmap [⟨0, "Serve"⟩, ⟨1, "Validate"⟩, ⟨2, "InitOnly"⟩]

def CommandLineOptions_Mode_value : ValueTable :=
  List.toFinmap [⟨"Serve", 0⟩, ⟨"Validate", 1⟩, ⟨"InitOnly", 2⟩]

/-- The message CommandLineOptions. -/
structure CommandLineOptions (D : Type) where
  BaseId : Nat
  Concurrency : Nat
  ConfigPath : String
  ConfigYaml : String
  AllowUnknownStaticFields : Bool
  RejectUnknownDynamicFields : Bool
  AdminAddressPath : String
  LocalAddressIpVersion : CommandLineOptions_IpVersion
  LogLevel : String
  ComponentLogLevel : String
  LogFormat : String
  LogFormatEscaped : Bool
  LogPath : String
  ServiceCluster : String
  ServiceNode : String
  ServiceZone : String
  FileFlushInterval : Option D
  DrainTime : Option D
  ParentShutdownTime : Option D
  Mode : CommandLineOptions_Mode
  DisableHotRestart : Bool
  EnableMutexTracing : Bool
  RestartEpoch : Nat
  CpusetThreads : Bool
  DisabledExtensions : Option (List String)
  XXX_NoUnkeyedLiteral : Unit
  XXX_unrecognized : Option (List Nat)
  XXX_sizecache : Int

/-- The message ServerInfo. -/
structure ServerInfo (D : Type) where
  Version : String
  State : ServerInfo_State
  UptimeCurrentEpoch : Option D
  UptimeAllEpochs : Option D
  HotRestartVersion : String
  CommandLineOptions : Option (CommandLineOptions D)
  XXX_NoUnkeyedLiteral : Unit
  XXX_unrecognized : Option (List Nat)
  XXX_sizecache : Int

variable {D : Type}

def ServerInfo.GetVersion (m : Option (ServerInfo D)) : String :=
  match m with
  | some x => x.Version
  | none => ""

def ServerInfo.GetState (m : Option (ServerInfo D)) : ServerInfo_State :=
  match m with
  | some x => x.State
  | none => ServerInfo_LIVE

def ServerInfo.GetUptimeCurrentEpoch (m : Option (ServerInfo D)) : Option D :=
  match m with
  | some x => x.UptimeCurrentEpoch
  | none => none

def ServerInfo.GetUptimeAllEpochs (m : Option (ServerInfo D)) : Option D :=
  match m with
  | some x => x.UptimeAllEpochs
  | none => none

def ServerInfo.GetHotRestartVersion (m : Option (ServerInfo D)) : String :=
  match m with
  | some x => x.HotRestartVersion
  | none => ""

def ServerInfo.GetCommandLineOptions (m : Option (ServerInfo D)) :
    Option (envoy_admin_v4alpha.CommandLineOptions D) :=
  match m with
  | some x => x.CommandLineOptions
  | none => none

def CommandLineOptions.GetMode (m : Option (CommandLineOptions D)) : CommandLineOptions_Mode :=
  match m with
  | some x => x.Mode
  | none => CommandLineOptions_Serve

/-- The zero value `ServerInfo{}`. -/
def zeroServerInfo : ServerInfo D :=
  { Version := "", State := 0, UptimeCurrentEpoch := none, UptimeAllEpochs := none,
    HotRestartVersion := "", CommandLineOptions := none, XXX_NoUnkeyedLiteral := (),
    XXX_unrecognized := none, XXX_sizecache := 0 }

end envoy_admin_v4alpha

namespace Stream

/-! ## Helper lemmas -/

theorem assign_isSome {V : Type} (m : GoMap V) (k : String) (v : V) (h : m.isSome = true) :
    ∃ t, m.assign k v = some (some t) := by
  cases m with
  | none => simp at h
  | some t => exact ⟨t.insert k v, rfl⟩

theorem step_preserves (s : StreamState) (op : Op) (h : s.knownResourceNames.isSome = true) :
    ∃ s1, op.step s = some s1 ∧ s1.knownResourceNames.isSome = true ∧
      s1.wildcard = s.wildcard ∧ s1.first = (s.first && !op.isSetResourceVersions) := by
  cases op with
  | setResourceVersions v =>
    exact ⟨_, rfl, h, rfl, by simp [SetResourceVersions, Op.isSetResourceVersions]⟩
  | isOrdered o =>
    exact ⟨_, rfl, h, rfl, by simp [IsOrdered, Op.isSetResourceVersions]⟩
  | setKnownResourceNames url names =>
    obtain ⟨t, ht⟩ := assign_isSome s.knownResourceNames url names h
    refine ⟨{ s with knownResourceNames := some t }, ?_, rfl, rfl, ?_⟩
    · simp [Op.step, SetKnownResourceNames, ht]
    · simp [Op.isSetResourceVersions]
  | setKnownResourceNamesAsList url names =>
    obtain ⟨t, ht⟩ := assign_isSome s.knownResourceNames url (some (namesLoop ∅ names)) h
    refine ⟨{ s with knownResourceNames := some t }, ?_, rfl, rfl, ?_⟩
    · simp [Op.step, SetKnownResourceNamesAsList, ht]
    · simp [Op.isSetResourceVersions]
  | getResourceVersions => exact ⟨s, rfl, h, rfl, by simp [Op.isSetResourceVersions]⟩
  | isFirst => exact ⟨s, rfl, h, rfl, by simp [Op.isSetResourceVersions]⟩
  | isWildcard => exact ⟨s, rfl, h, rfl, by simp [Op.isSetResourceVersions]⟩
  | getKnownResourceNames url => exact ⟨s, rfl, h, rfl, by simp [Op.isSetResourceVersions]⟩

theorem run_preserves (ops : List Op) :
    ∀ s : StreamState, s.knownResourceNames.isSome = true →
      ∃ s1, run s ops = some s1 ∧ s1.knownResourceNames.isSome = true ∧
        s1.wildcard = s.wildcard ∧
        s1.first = (s.first && !ops.any Op.isSetResourceVersions) := by
  induction ops with
  | nil => intro s h; exact ⟨s, rfl, h, rfl, by simp⟩
  | cons op ops ih =>
    intro s h
    obtain ⟨s1, h1, hk1, hw1, hf1⟩ := step_preserves s op h
    obtain ⟨s2, h2, hk2, hw2, hf2⟩ := ih s1 hk1
    refine ⟨s2, ?_, hk2, hw2.trans hw1, ?_⟩
    · simp [run, h1, h2]
    · rw [hf2, hf1]; simp [Bool.and_assoc]

theorem newStreamState_known (w : Bool) (seed : VersionMap) :
    (NewStreamState w seed).knownResourceNames.isSome = true := by
  unfold NewStreamState; split <;> rfl

theorem newStreamState_wildcard (w : Bool) (seed : VersionMap) :
    (NewStreamState w seed).wildcard = w := by
  unfold NewStreamState; split <;> rfl

theorem newStreamState_first (w : Bool) (seed : VersionMap) :
    (NewStreamState w seed).first = true := by
  unfold NewStreamState; split <;> rfl

/-! ## Construction -/

/-- C1: for every wildcard flag, a state made from the nil seed returns the
empty map, which is not nil and has no entry, from GetResourceVersions, and a
state made from a non-nil seed map returns exactly that map. -/
theorem newStreamState_resourceVersions (w : Bool) :
    GetResourceVersions (NewStreamState w none) = GoMap.make ∧
      GetResourceVersions (NewStreamState w none) ≠ none ∧
      (GetResourceVersions (NewStreamState w none)).len = 0 ∧
      (∀ k, (GetResourceVersions (NewStreamState w none)).get? k = none) ∧
      ∀ t : Finmap (fun _ : String => String),
        GetResourceVersions (NewStreamState w (some t)) = some t := by
  refine ⟨rfl, by simp [GetResourceVersions, NewStreamState, GoMap.make], rfl, fun k => rfl,
    fun t => ?_⟩
  simp [GetResourceVersions, NewStreamState]

/-- C2: for every wildcard flag and every seed, nil or not, the state made by
NewStreamState has IsFirst true and the field ordered false. -/
theorem newStreamState_flags (w : Bool) (seed : VersionMap) :
    IsFirst (NewStreamState w seed) = true ∧ (NewStreamState w seed).ordered = false := by
  unfold NewStreamState IsFirst; split <;> exact ⟨rfl, rfl⟩

/-! ## SetResourceVersions -/

/-- C3: after SetResourceVersions(v) on any state, GetResourceVersions returns
exactly v, so a name is a key afterwards exactly when it is a key of v, whatever
the old map held, and IsFirst returns false. -/
theorem setResourceVersions_replaces (s : StreamState) (v : VersionMap) :
    GetResourceVersions (SetResourceVersions s v) = v ∧
      (∀ k, (GetResourceVersions (SetResourceVersions s v)).hasKey k = v.hasKey k) ∧
      IsFirst (SetResourceVersions s v) = false :=
  ⟨rfl, fun _ => rfl, rfl⟩

/-- C4: after any finite sequence of calls on a state made by NewStreamState
the sequence has run without a panic, and IsFirst is true exactly when no call
of the sequence is a call of SetResourceVersions. -/
theorem isFirst_iff_no_setResourceVersions (w : Bool) (seed : VersionMap) (ops : List Op) :
    ∃ s1, run (NewStreamState w seed) ops = some s1 ∧
      (IsFirst s1 = true ↔ ops.any Op.isSetResourceVersions = false) := by
  obtain ⟨s1, h1, _, _, hf⟩ := run_preserves ops _ (newStreamState_known w seed)
  refine ⟨s1, h1, ?_⟩
  rw [IsFirst, hf, newStreamState_first]
  simp

/-- C5: after any finite sequence of calls on NewStreamState(w, seed) the
sequence has run without a panic and IsWildcard returns w; and on any state,
the fresh ones included, IsWildcard returns after a call of
SetKnownResourceNames what it returned before. -/
theorem isWildcard_fixed (w : Bool) (seed : VersionMap) (ops : List Op) :
    (∃ s1, run (NewStreamState w seed) ops = some s1 ∧ IsWildcard s1 = w) ∧
      (∀ (url : String) (names : NameSet),
        ∃ s1, SetKnownResourceNames (NewStreamState w seed) url names = some s1 ∧
          IsWildcard s1 = w) ∧
      ∀ (s : StreamState) (url : String) (names : NameSet),
        IsWildcard (after s (SetKnownResourceNames s url names)) = IsWildcard s := by
  refine ⟨?_, fun url names => ?_, fun s url names => ?_⟩
  · obtain ⟨s1, h1, _, hw, _⟩ := run_preserves ops _ (newStreamState_known w seed)
    exact ⟨s1, h1, by rw [IsWildcard, hw, newStreamState_wildcard]⟩
  · obtain ⟨s1, h1, _, hw, _⟩ :=
      step_preserves (NewStreamState w seed) (.setKnownResourceNames url names)
        (newStreamState_known w seed)
    exact ⟨s1, h1, by rw [IsWildcard, hw, newStreamState_wildcard]⟩
  · unfold SetKnownResourceNames
    cases s.knownResourceNames.assign url names <;> rfl

/-! ## Known resource names -/

theorem get_assign_same {V : Type} (t : Finmap (fun _ : String => V)) (k : String) (v zero : V) :
    GoMap.index (some (t.insert k v)) k zero = v := by
  simp [GoMap.index, GoMap.get?, Finmap.lookup_insert]

theorem get_assign_other {V : Type} (t : Finmap (fun _ : String => V)) (k k1 : String)
    (v zero : V) (h : k ≠ k1) :
    GoMap.index (some (t.insert k v)) k1 zero = GoMap.index (some t) k1 zero := by
  simp [GoMap.index, GoMap.get?, Finmap.lookup_insert_of_ne _ (Ne.symm h)]

/-- C6, as the code has it: on every state whose knownResourceNames map is not
nil, SetKnownResourceNames(u, n) completes, GetKnownResourceNames(u) then
returns exactly n, whatever was stored under u before, and the map is still
not nil. -/
theorem setKnownResourceNames_get (s : StreamState) (url : String) (names : NameSet)
    (h : s.knownResourceNames ≠ none) :
    ∃ s1, SetKnownResourceNames s url names = some s1 ∧
      GetKnownResourceNames s1 url = names ∧ s1.knownResourceNames ≠ none := by
  cases hk : s.knownResourceNames with
  | none => exact absurd hk h
  | some t =>
    refine ⟨{ s with knownResourceNames := some (t.insert url names) }, ?_, ?_, by simp⟩
    · simp [SetKnownResourceNames, GoMap.assign, hk]
    · exact get_assign_same t url names none

/-- Witness of C6: the sample state, which knows the names a and b of type.a,
is given the set of c alone for that type and returns it. -/
theorem setKnownResourceNames_get_witness :
    sampleState.knownResourceNames ≠ none ∧
      GetKnownResourceNames sampleState "type.a" = nameSetOf ["a", "b"] ∧
      ∃ s1, SetKnownResourceNames sampleState "type.a" (nameSetOf ["c"]) = some s1 ∧
        GetKnownResourceNames s1 "type.a" = nameSetOf ["c"] ∧ s1.knownResourceNames ≠ none :=
  ⟨by decide, by decide,
    setKnownResourceNames_get sampleState "type.a" (nameSetOf ["c"]) (by decide)⟩

/-- C6 fails on the zero value of StreamState: its knownResourceNames map is
nil, the assignment panics, and the receiver still returns nil for the type. -/
theorem setKnownResourceNames_zero_value :
    SetKnownResourceNames zeroStreamState "type.a" (nameSetOf ["a"]) = none ∧
      (¬ ∃ s1, SetKnownResourceNames zeroStreamState "type.a" (nameSetOf ["a"]) = some s1 ∧
        GetKnownResourceNames s1 "type.a" = nameSetOf ["a"]) ∧
      GetKnownResourceNames
        (after zeroStreamState
          (SetKnownResourceNames zeroStreamState "type.a" (nameSetOf ["a"])))
        "type.a" ≠ nameSetOf ["a"] := by
  refine ⟨rfl, ?_, by decide⟩
  rintro ⟨s1, h1, _⟩
  have h0 : SetKnownResourceNames zeroStreamState "type.a" (nameSetOf ["a"]) = none := rfl
  rw [h0] at h1
  cases h1

theorem assign_frame (s : StreamState) (url url1 : String) (names : NameSet) (h : url ≠ url1) :
    GetKnownResourceNames
        (after s ((s.knownResourceNames.assign url names).map
          (fun k => { s with knownResourceNames := k })))
        url1 = GetKnownResourceNames s url1 := by
  cases hk : s.knownResourceNames with
  | none => simp [after, GoMap.assign]
  | some t =>
    simp only [after, GoMap.assign, Option.map_some', Option.getD_some, GetKnownResourceNames]
    rw [hk]
    exact get_assign_other t url url1 names none h

theorem setKnownResourceNames_eq_map (s : StreamState) (url : String) (names : NameSet) :
    SetKnownResourceNames s url names =
      (s.knownResourceNames.assign url names).map
        (fun k => { s with knownResourceNames := k }) := by
  unfold SetKnownResourceNames
  cases s.knownResourceNames.assign url names <;> rfl

theorem setKnownResourceNamesAsList_eq (s : StreamState) (url : String) (names : List String) :
    SetKnownResourceNamesAsList s url names =
      SetKnownResourceNames s url (some (namesLoop ∅ names)) := rfl

/-- C7: for distinct type URLs u and u1, the receiver returns the same known
names for u1 after SetKnownResourceNames(u, n) and after
SetKnownResourceNamesAsList(u, l) as before the call, whether the call
completed or panicked. -/
theorem knownResourceNames_isolated (s : StreamState) (url url1 : String) (names : NameSet)
    (l : List String) (h : url ≠ url1) :
    GetKnownResourceNames (after s (SetKnownResourceNames s url names)) url1 =
        GetKnownResourceNames s url1 ∧
      GetKnownResourceNames (after s (SetKnownResourceNamesAsList s url l)) url1 =
        GetKnownResourceNames s url1 := by
  constructor
  · rw [setKnownResourceNames_eq_map]
    exact assign_frame s url url1 names h
  · rw [setKnownResourceNamesAsList_eq, setKnownResourceNames_eq_map]
    exact assign_frame s url url1 _ h

/-- Witness of C7: on the sample state, which knows the names a and b of
type.a, both setters complete on type.b and the names of type.a are returned as
before. -/
theorem knownResourceNames_isolated_witness :
    "type.b" ≠ "type.a" ∧
      (SetKnownResourceNames sampleState "type.b" (nameSetOf ["c"])).isSome = true ∧
      (SetKnownResourceNamesAsList sampleState "type.b" ["c", "d"]).isSome = true ∧
      GetKnownResourceNames sampleState "type.a" = nameSetOf ["a", "b"] ∧
      (GetKnownResourceNames
          (after sampleState (SetKnownResourceNames sampleState "type.b" (nameSetOf ["c"])))
          "type.a" = GetKnownResourceNames sampleState "type.a" ∧
        GetKnownResourceNames
          (after sampleState (SetKnownResourceNamesAsList sampleState "type.b" ["c", "d"]))
          "type.a" = GetKnownResourceNames sampleState "type.a") :=
  ⟨by decide, by decide, by decide, by decide,
    knownResourceNames_isolated sampleState "type.b" "type.a" (nameSetOf ["c"]) ["c", "d"]
      (by decide)⟩

/-! ## Ordering mode -/

theorem declareAll_append (s : StreamState) (os : List Bool) (o : Bool) :
    declareAll s (os ++ [o]) = (IsOrdered (declareAll s os) o).2 := by
  simp [declareAll, List.foldl_append]

/-- C8: IsOrdered(o) returns o and leaves the field ordered equal to o on
every state, and after any run of IsOrdered calls the field is the argument of
the last call. -/
theorem isOrdered_sets_and_returns (s : StreamState) (o : Bool) (os : List Bool) :
    (IsOrdered s o).1 = o ∧ (IsOrdered s o).2.ordered = o ∧
      (declareAll s (os ++ [o])).ordered = o := by
  refine ⟨rfl, rfl, ?_⟩
  rw [declareAll_append]
  rfl

/-- C9, as the code has it: a later call IsOrdered(b) on a state on which
IsOrdered(a) was called is accepted: it returns b and leaves the field ordered
equal to b, so the field is still a afterwards exactly when b is a. -/
theorem isOrdered_redeclared (s : StreamState) (a b : Bool) :
    (IsOrdered (IsOrdered s a).2 b).1 = b ∧
      (IsOrdered (IsOrdered s a).2 b).2.ordered = b ∧
      ((IsOrdered (IsOrdered s a).2 b).2.ordered = a ↔ b = a) :=
  ⟨rfl, rfl, Iff.rfl⟩

/-- C9 fails: on a fresh state IsOrdered(true) followed by IsOrdered(false)
leaves the field ordered false, not true. -/
theorem isOrdered_not_fixed :
    (IsOrdered (NewStreamState false none) true).2.ordered = true ∧
      (IsOrdered (IsOrdered (NewStreamState false none) true).2 false).2.ordered ≠ true := by
  decide

/-! ## Idempotence -/

/-- C10: calling SetResourceVersions(v) twice in a row gives the same state
as calling it once, field by field. -/
theorem setResourceVersions_idempotent (s : StreamState) (v : VersionMap) :
    SetResourceVersions (SetResourceVersions s v) v = SetResourceVersions s v ∧
      (SetResourceVersions (SetResourceVersions s v) v).wildcard =
        (SetResourceVersions s v).wildcard ∧
      (SetResourceVersions (SetResourceVersions s v) v).resourceVersions =
        (SetResourceVersions s v).resourceVersions ∧
      (SetResourceVersions (SetResourceVersions s v) v).knownResourceNames =
        (SetResourceVersions s v).knownResourceNames ∧
      (SetResourceVersions (SetResourceVersions s v) v).first =
        (SetResourceVersions s v).first ∧
      (SetResourceVersions (SetResourceVersions s v) v).ordered =
        (SetResourceVersions s v).ordered :=
  ⟨rfl, rfl, rfl, rfl, rfl, rfl⟩

/-! ## The tracked version map -/

theorem step_resourceVersions (s : StreamState) (op : Op) :
    (after s (op.step s)).resourceVersions = op.versionsArg?.getD s.resourceVersions := by
  cases op with
  | setKnownResourceNames url names =>
    simp only [Op.step, Op.versionsArg?, Option.getD_none, setKnownResourceNames_eq_map]
    cases s.knownResourceNames.assign url names <;> rfl
  | setKnownResourceNamesAsList url names =>
    simp only [Op.step, Op.versionsArg?, Option.getD_none, setKnownResourceNamesAsList_eq,
      setKnownResourceNames_eq_map]
    cases s.knownResourceNames.assign url (some (namesLoop ∅ names)) <;> rfl
  | _ => rfl

theorem run_resourceVersions (ops : List Op) :
    ∀ s s1 : StreamState, run s ops = some s1 →
      s1.resourceVersions = (lastVersionsArg? ops).getD s.resourceVersions := by
  induction ops with
  | nil =>
    intro s s1 h
    simp only [run, Option.some.injEq] at h
    subst h
    rfl
  | cons op ops ih =>
    intro s s1 h
    cases hstep : op.step s with
    | none => simp [run, hstep] at h
    | some s2 =>
      simp only [run, hstep, Option.some_bind] at h
      have h2 := step_resourceVersions s op
      simp only [hstep, after, Option.getD_some] at h2
      rw [ih s2 s1 h, h2, lastVersionsArg?]
      cases lastVersionsArg? ops <;> cases op.versionsArg? <;> rfl

/-- C11: after any finite sequence of calls on NewStreamState(w, seed) the
sequence has run without a panic and GetResourceVersions returns the argument
of the most recent SetResourceVersions call, or what the constructor stored
when there was none: the seed, or the empty map for the nil seed; and on any
state a call other than SetResourceVersions leaves the returned map as it was,
whether the call completed or panicked. -/
theorem resourceVersions_last_set (w : Bool) (seed : VersionMap) (ops : List Op) :
    (∃ s1, run (NewStreamState w seed) ops = some s1 ∧
        GetResourceVersions s1 =
          (lastVersionsArg? ops).getD (if seed = none then GoMap.make else seed)) ∧
      ∀ (s : StreamState) (op : Op), op.isSetResourceVersions = false →
        GetResourceVersions (after s (op.step s)) = GetResourceVersions s := by
  constructor
  · obtain ⟨s1, h1, _⟩ := run_preserves ops _ (newStreamState_known w seed)
    refine ⟨s1, h1, ?_⟩
    rw [GetResourceVersions, run_resourceVersions ops _ s1 h1]
    congr 1
    unfold NewStreamState
    split <;> rfl
  · intro s op hop
    rw [GetResourceVersions, step_resourceVersions]
    cases op <;> first | rfl | simp [Op.isSetResourceVersions] at hop

/-- Witness of C11: on the sample state a call of IsOrdered and a call of
SetKnownResourceNamesAsList, neither a call of SetResourceVersions, leave the
version map as it was, and a sequence with two SetResourceVersions calls ends
with the argument of the second. -/
theorem resourceVersions_last_set_witness :
    GetResourceVersions (after sampleState ((Op.isOrdered true).step sampleState)) =
        GetResourceVersions sampleState ∧
      GetResourceVersions
          (after sampleState
            ((Op.setKnownResourceNamesAsList "type.b" ["c"]).step sampleState)) =
        GetResourceVersions sampleState ∧
      ∃ s1, run (NewStreamState false none)
            [.setResourceVersions none, .isOrdered true,
              .setResourceVersions (some (Finmap.singleton "a" "1")),
              .setKnownResourceNames "type.a" none] = some s1 ∧
          GetResourceVersions s1 = some (Finmap.singleton "a" "1") :=
  ⟨(resourceVersions_last_set true none []).2 sampleState (.isOrdered true) rfl,
    (resourceVersions_last_set true none []).2 sampleState
      (.setKnownResourceNamesAsList "type.b" ["c"]) rfl,
    (resourceVersions_last_set false none
      [.setResourceVersions none, .isOrdered true,
        .setResourceVersions (some (Finmap.singleton "a" "1")),
        .setKnownResourceNames "type.a" none]).1⟩

/-! ## The list form of the setter -/

theorem mem_namesLoop (names : List String) :
    ∀ (m : Finmap (fun _ : String => Unit)) (name : String),
      name ∈ namesLoop m names ↔ name ∈ names ∨ name ∈ m := by
  induction names with
  | nil => intro m name; simp [namesLoop]
  | cons n ns ih =>
    intro m name
    have h := ih (m.insert n ()) name
    simp only [namesLoop, List.foldl_cons] at h ⊢
    rw [h, Finmap.mem_insert, List.mem_cons]
    tauto

theorem hasKey_namesLoop (names : List String) (name : String) :
    GoMap.hasKey (some (namesLoop ∅ names)) name = true ↔ name ∈ names := by
  rw [GoMap.hasKey, GoMap.get?, Finmap.lookup_isSome, mem_namesLoop]
  simp [Finmap.not_mem_empty]

theorem nameSet_ext (t t1 : Finmap (fun _ : String => Unit))
    (h : ∀ name, GoMap.hasKey (some t) name = true ↔ GoMap.hasKey (some t1) name = true) :
    t = t1 := by
  apply Finmap.ext_lookup
  intro name
  have h1 := h name
  simp only [GoMap.hasKey, GoMap.get?] at h1
  cases ha : Finmap.lookup name t <;> cases hb : Finmap.lookup name t1 <;>
    simp_all

/-- C12, as the code has it: SetKnownResourceNamesAsList(u, l) builds a
non-nil map whose keys are exactly the names occurring in l, and its outcome is
the outcome of SetKnownResourceNames(u, S) for every non-nil map S whose keys
are exactly the names occurring in l; so two lists with the same elements, in
any order and multiplicity, have the same outcome. -/
theorem setKnownResourceNamesAsList_refines (s : StreamState) (url : String)
    (l : List String) :
    (∀ name, GoMap.hasKey (some (namesLoop ∅ l)) name = true ↔ name ∈ l) ∧
      (∀ S : NameSet, S ≠ none → (∀ name, S.hasKey name = true ↔ name ∈ l) →
        SetKnownResourceNamesAsList s url l = SetKnownResourceNames s url S) ∧
      ∀ l1 : List String, (∀ name, name ∈ l1 ↔ name ∈ l) →
        SetKnownResourceNamesAsList s url l1 = SetKnownResourceNamesAsList s url l := by
  refine ⟨hasKey_namesLoop l, fun S hS hmem => ?_, fun l1 h1 => ?_⟩
  · cases S with
    | none => exact absurd rfl hS
    | some t =>
      rw [setKnownResourceNamesAsList_eq]
      congr 2
      exact nameSet_ext _ _ fun name => (hasKey_namesLoop l name).trans (hmem name).symm
  · rw [setKnownResourceNamesAsList_eq, setKnownResourceNamesAsList_eq]
    congr 2
    exact nameSet_ext _ _ fun name =>
      (hasKey_namesLoop l1 name).trans ((h1 name).trans (hasKey_namesLoop l name).symm)

/-- Witness of C12: on the sample state the list a, b, a gives the outcome of
SetKnownResourceNames on the map literal with the keys b and a, and the outcome
of the list b, a; the call completes. -/
theorem setKnownResourceNamesAsList_refines_witness :
    (SetKnownResourceNamesAsList sampleState "type.a" ["a", "b", "a"]).isSome = true ∧
      SetKnownResourceNamesAsList sampleState "type.a" ["a", "b", "a"] =
        SetKnownResourceNames sampleState "type.a" (nameSetOf ["b", "a"]) ∧
      SetKnownResourceNamesAsList sampleState "type.a" ["b", "a"] =
        SetKnownResourceNamesAsList sampleState "type.a" ["a", "b", "a"] :=
  ⟨by decide,
    (setKnownResourceNamesAsList_refines sampleState "type.a" ["a", "b", "a"]).2.1
      (nameSetOf ["b", "a"]) (by decide)
      (fun name => by
        simp [nameSetOf, GoMap.hasKey, GoMap.get?, Finmap.lookup_isSome, Finmap.mem_insert,
          Finmap.not_mem_empty, or_comm]),
    (setKnownResourceNamesAsList_refines sampleState "type.a" ["a", "b", "a"]).2.2
      ["b", "a"] (fun name => by simp [or_comm])⟩

/-- C12 fails for the empty list and the nil map: the nil map holds no name,
as the empty list does, yet SetKnownResourceNames stores nil under the type URL
where SetKnownResourceNamesAsList stores an empty map that is not nil. -/
theorem setKnownResourceNamesAsList_nil_set :
    (∀ name, GoMap.hasKey (none : NameSet) name = true ↔ name ∈ ([] : List String)) ∧
      SetKnownResourceNamesAsList (NewStreamState false none) "type.a" [] ≠
        SetKnownResourceNames (NewStreamState false none) "type.a" none ∧
      (SetKnownResourceNamesAsList (NewStreamState false none) "type.a" []).map
          (fun s1 => GetKnownResourceNames s1 "type.a") = some GoMap.make ∧
      (SetKnownResourceNames (NewStreamState false none) "type.a" none).map
          (fun s1 => GetKnownResourceNames s1 "type.a") = some none :=
  ⟨fun name => by simp [GoMap.hasKey, GoMap.get?], by decide, by decide, by decide⟩

/-! ## Reconciliation -/

theorem entry_lookup (snapshot : Snapshot) (e : (_ : String) × Resource)
    (he : e ∈ snapshot.entries) : snapshot.lookup e.1 = some e.2 := by
  have h : e.2 ∈ snapshot.lookup e.1 := Finmap.mem_lookup_iff.2 he
  exact h

theorem mem_of_mem_keys {V : Type} (m : GoMap V) (name : String) (h : name ∈ m.keys) :
    ∃ x, m.get? name = some x := by
  cases m with
  | none => simp [GoMap.keys] at h
  | some t =>
    simp only [GoMap.keys, Finmap.mem_keys] at h
    exact Finmap.mem_iff.1 h

/-- C13: when the versions recorded by SetResourceVersions are exactly the
name-to-version map of the snapshot of a type, the modelled Delta
reconciliation against the same snapshot with no subscribe and no unsubscribe
names gives an empty resources list and an empty removed list, for every
wildcard flag and previous interest set. -/
theorem delta_noop_convergence (s0 : StreamState) (T : String) (store : SnapshotStore)
    (previous : Finset String) (v : VersionMap)
    (h : ∀ name, v.get? name = ((store T).lookup name).map Resource.version) :
    (deltaReconcile (SetResourceVersions s0 v) previous
        { typeURL := T, subscribe := ∅, unsubscribe := ∅ } store).resources = 0 ∧
      (deltaReconcile (SetResourceVersions s0 v) previous
        { typeURL := T, subscribe := ∅, unsubscribe := ∅ } store).removed = ∅ := by
  constructor
  · simp only [deltaReconcile, deltaResources, GetResourceVersions, SetResourceVersions]
    rw [Multiset.filter_eq_nil.2, Multiset.map_zero]
    intro e he hcond
    apply hcond.2
    rw [h e.1, entry_lookup (store T) e he]
    rfl
  · simp only [deltaReconcile, deltaRemoved, GetResourceVersions, SetResourceVersions,
      Finset.union_empty]
    rw [Finset.filter_eq_empty_iff]
    intro name hname habsent
    obtain ⟨x, hx⟩ := mem_of_mem_keys v name hname
    rw [h name, Finmap.lookup_eq_none.2 habsent] at hx
    simp at hx

/-- Witness of C13: the snapshot holds svcA at version v1, the recorded
versions are svcA at v1, and the stream had asked for svcA and svcB. -/
theorem delta_noop_convergence_witness :
    (deltaReconcile
        (SetResourceVersions (NewStreamState false none) (some (Finmap.singleton "svcA" "v1")))
        {"svcA", "svcB"} { typeURL := "type.a", subscribe := ∅, unsubscribe := ∅ }
        (fun _ => Finmap.singleton "svcA" { content := "a", version := "v1" })).resources = 0 ∧
      (deltaReconcile
        (SetResourceVersions (NewStreamState false none) (some (Finmap.singleton "svcA" "v1")))
        {"svcA", "svcB"} { typeURL := "type.a", subscribe := ∅, unsubscribe := ∅ }
        (fun _ => Finmap.singleton "svcA" { content := "a", version := "v1" })).removed = ∅ :=
  delta_noop_convergence (NewStreamState false none) "type.a"
    (fun _ => Finmap.singleton "svcA" { content := "a", version := "v1" }) {"svcA", "svcB"}
    (some (Finmap.singleton "svcA" "v1"))
    (fun name => by
      by_cases hn : name = "svcA"
      · subst hn
        simp [GoMap.get?, Finmap.lookup_singleton_eq]
      · have h1 : name ∉ (Finmap.singleton "svcA" "v1" : Finmap (fun _ : String => String)) := by
          rw [Finmap.mem_singleton]; exact hn
        have h2 : name ∉ (Finmap.singleton "svcA" { content := "a", version := "v1" } :
            Snapshot) := by
          rw [Finmap.mem_singleton]; exact hn
        simp [GoMap.get?, Finmap.lookup_eq_none.2 h1, Finmap.lookup_eq_none.2 h2])

/-- C14: on every freshly created state the modelled SOTW reconciliation
produces a response, carrying the computed resource set, for every type, every
requested name set and every snapshot store; for a store without resources the
response is the one with the empty resource set. -/
theorem sotw_first_send (w : Bool) (seed : VersionMap) (T : String) (requested : NameSet)
    (store : SnapshotStore) :
    IsFirst (NewStreamState w seed) = true ∧
      (∃ s1 resp, sotwReconcile (NewStreamState w seed) T requested store =
          some (s1, some resp) ∧
        resp.resources = sotwResources s1 T (store T)) ∧
      ∃ s1, sotwReconcile (NewStreamState w seed) T requested (fun _ => ∅) =
        some (s1, some { typeURL := T, resources := 0 }) := by
  have hstep : ∃ s1, (if IsWildcard (NewStreamState w seed) = true then
        some (NewStreamState w seed)
      else SetKnownResourceNames (NewStreamState w seed) T requested) = some s1 ∧
      IsFirst s1 = true := by
    split
    · exact ⟨_, rfl, newStreamState_first w seed⟩
    · obtain ⟨s1, h1, _, _, hf⟩ :=
        step_preserves (NewStreamState w seed) (.setKnownResourceNames T requested)
          (newStreamState_known w seed)
      refine ⟨s1, h1, ?_⟩
      rw [IsFirst, hf, newStreamState_first]
      rfl
  obtain ⟨s1, h1, hf⟩ := hstep
  refine ⟨newStreamState_first w seed,
    ⟨s1, { typeURL := T, resources := sotwResources s1 T (store T) }, ?_, rfl⟩, ⟨s1, ?_⟩⟩
  · simp only [sotwReconcile, h1, hf]
    simp
  · simp only [sotwReconcile, h1, hf]
    simp only [sotwResources, Bool.true_eq_false, and_false, if_false, Option.some.injEq,
      Prod.mk.injEq, true_and, SotwResponse.mk.injEq]
    exact congrArg (Multiset.map _) (Multiset.filter_zero _)

/-! ## Names never stored -/

theorem step_known_frame (s s1 : StreamState) (op : Op) (url : String)
    (hop : op.setsKnownNamesOf url = false) (hstep : op.step s = some s1) :
    GetKnownResourceNames s1 url = GetKnownResourceNames s url := by
  cases op with
  | setKnownResourceNames u names =>
    have hne : u ≠ url := by simpa [Op.setsKnownNamesOf] using hop
    have h := assign_frame s u url names hne
    rw [← setKnownResourceNames_eq_map] at h
    simp only [Op.step] at hstep
    rw [hstep] at h
    exact h
  | setKnownResourceNamesAsList u names =>
    have hne : u ≠ url := by simpa [Op.setsKnownNamesOf] using hop
    have h := assign_frame s u url (some (namesLoop ∅ names)) hne
    rw [← setKnownResourceNames_eq_map, ← setKnownResourceNamesAsList_eq] at h
    simp only [Op.step] at hstep
    rw [hstep] at h
    exact h
  | setResourceVersions v =>
    simp only [Op.step, Option.some.injEq] at hstep
    subst hstep
    rfl
  | isOrdered o =>
    simp only [Op.step, Option.some.injEq] at hstep
    subst hstep
    rfl
  | getResourceVersions => simp only [Op.step, Option.some.injEq] at hstep; subst hstep; rfl
  | isFirst => simp only [Op.step, Option.some.injEq] at hstep; subst hstep; rfl
  | isWildcard => simp only [Op.step, Option.some.injEq] at hstep; subst hstep; rfl
  | getKnownResourceNames u => simp only [Op.step, Option.some.injEq] at hstep; subst hstep; rfl

theorem run_known_frame (ops : List Op) (url : String) :
    ∀ s s1 : StreamState, ops.any (Op.setsKnownNamesOf url) = false → run s ops = some s1 →
      GetKnownResourceNames s1 url = GetKnownResourceNames s url := by
  induction ops with
  | nil =>
    intro s s1 _ h
    simp only [run, Option.some.injEq] at h
    subst h
    rfl
  | cons op ops ih =>
    intro s s1 hany h
    simp only [List.any_cons, Bool.or_eq_false_iff] at hany
    cases hstep : op.step s with
    | none => simp [run, hstep] at h
    | some s2 =>
      simp only [run, hstep, Option.some_bind] at h
      rw [ih s2 s1 hany.2 h, step_known_frame s s2 op url hany.1 hstep]

theorem newStreamState_knownNames (w : Bool) (seed : VersionMap) (url : String) :
    GetKnownResourceNames (NewStreamState w seed) url = none := by
  unfold NewStreamState
  split <;> rfl

/-- C15: on a freshly created state GetKnownResourceNames returns, for every
type URL, the nil map, which holds no name; on the zero value it does the same;
and after any sequence of calls on a fresh state none of which passes the type
URL to SetKnownResourceNames or SetKnownResourceNamesAsList, the sequence has
run without a panic and the map returned for that type URL is still the nil
map, holding no name. -/
theorem knownResourceNames_never_set (w : Bool) (seed : VersionMap) (url : String)
    (ops : List Op) (h : ops.any (Op.setsKnownNamesOf url) = false) :
    GetKnownResourceNames (NewStreamState w seed) url = none ∧
      GetKnownResourceNames zeroStreamState url = none ∧
      (∀ name, (GetKnownResourceNames (NewStreamState w seed) url).hasKey name = false) ∧
      ∃ s1, run (NewStreamState w seed) ops = some s1 ∧
        GetKnownResourceNames s1 url = none ∧
        (GetKnownResourceNames s1 url).len = 0 ∧
        ∀ name, (GetKnownResourceNames s1 url).hasKey name = false := by
  have h0 := newStreamState_knownNames w seed url
  obtain ⟨s1, h1, _⟩ := run_preserves ops _ (newStreamState_known w seed)
  have h2 : GetKnownResourceNames s1 url = none :=
    (run_known_frame ops url _ s1 h h1).trans h0
  refine ⟨h0, rfl, fun name => by rw [h0]; rfl, s1, h1, h2, by rw [h2]; rfl,
    fun name => by rw [h2]; rfl⟩

/-- Witness of C15: names are stored for type.a, by both setters, among other
calls on a fresh state; type.b, never passed to a setter, still has none. -/
theorem knownResourceNames_never_set_witness :
    GetKnownResourceNames (NewStreamState true none) "type.b" = none ∧
      GetKnownResourceNames zeroStreamState "type.b" = none ∧
      (∀ name, (GetKnownResourceNames (NewStreamState true none) "type.b").hasKey name = false) ∧
      ∃ s1, run (NewStreamState true none)
            [.setKnownResourceNames "type.a" (nameSetOf ["a"]), .isOrdered true,
              .setKnownResourceNamesAsList "type.a" ["b", "c"], .setResourceVersions none,
              .getKnownResourceNames "type.b"] = some s1 ∧
        GetKnownResourceNames s1 "type.b" = none ∧
        (GetKnownResourceNames s1 "type.b").len = 0 ∧
        ∀ name, (GetKnownResourceNames s1 "type.b").hasKey name = false :=
  knownResourceNames_never_set true none "type.b"
    [.setKnownResourceNames "type.a" (nameSetOf ["a"]), .isOrdered true,
      .setKnownResourceNamesAsList "type.a" ["b", "c"], .setResourceVersions none,
      .getKnownResourceNames "type.b"] (by decide)

/-! ## Nil version maps -/

/-- C16: SetResourceVersions(nil) leaves GetResourceVersions returning the nil
map on every state, while a state made by NewStreamState returns a non-nil map
for every seed, the empty one for the nil seed; so a fresh state on which
SetResourceVersions(nil) is called returns nil where it returned a non-nil map
before. -/
theorem setResourceVersions_keeps_nil (s : StreamState) (w : Bool) (seed : VersionMap) :
    GetResourceVersions (SetResourceVersions s none) = none ∧
      GetResourceVersions (NewStreamState w none) = GoMap.make ∧
      GetResourceVersions (NewStreamState w none) ≠ none ∧
      GetResourceVersions (NewStreamState w seed) ≠ none ∧
      GetResourceVersions (SetResourceVersions (NewStreamState w seed) none) = none := by
  refine ⟨rfl, rfl, by simp [GetResourceVersions, NewStreamState, GoMap.make], ?_, rfl⟩
  unfold NewStreamState GetResourceVersions
  split
  · simp [GoMap.make]
  · assumption

end Stream

namespace envoy_admin_v4alpha

/-! ## Enum tables -/

theorem tables_inverse (names : NameTable) (values : ValueTable)
    (h1 : ∀ k ∈ names.keys, (names.lookup k).bind values.lookup = some k)
    (h2 : ∀ n ∈ values.keys, (values.lookup n).bind names.lookup = some n)
    (k : Int) (n : String) : names.lookup k = some n ↔ values.lookup n = some k := by
  constructor
  · intro h
    have hk := h1 k (Finmap.mem_keys.2 (Finmap.mem_of_lookup_eq_some h))
    rwa [h, Option.some_bind] at hk
  · intro h
    have hn := h2 n (Finmap.mem_keys.2 (Finmap.mem_of_lookup_eq_some h))
    rwa [h, Option.some_bind] at hn

/-- C17, as the code has it: for each of the three enums the name table holds
the entry k: n exactly when the value table holds the entry n: k, for every
number k and string n; for k a key of the name table and n a key of the value
table the plain reads agree, X_name[k] == n exactly when X_value[n] == k; and
the keys of each name table are exactly the declared constants, each with the
name of its constant. -/
theorem enum_tables_inverse (k : Int) (n : String) :
    (ServerInfo_State_name.lookup k = some n ↔ ServerInfo_State_value.lookup n = some k) ∧
      (CommandLineOptions_IpVersion_name.lookup k = some n ↔
        CommandLineOptions_IpVersion_value.lookup n = some k) ∧
      (CommandLineOptions_Mode_name.lookup k = some n ↔
        CommandLineOptions_Mode_value.lookup n = some k) ∧
      ((∀ k1 ∈ ServerInfo_State_name.keys, ∀ n1 ∈ ServerInfo_State_value.keys,
          (ServerInfo_State_name.index k1 = n1 ↔ ServerInfo_State_value.index n1 = k1)) ∧
        (∀ k1 ∈ CommandLineOptions_IpVersion_name.keys,
          ∀ n1 ∈ CommandLineOptions_IpVersion_value.keys,
          (CommandLineOptions_IpVersion_name.index k1 = n1 ↔
            CommandLineOptions_IpVersion_value.index n1 = k1)) ∧
        ∀ k1 ∈ CommandLineOptions_Mode_name.keys, ∀ n1 ∈ CommandLineOptions_Mode_value.keys,
          (CommandLineOptions_Mode_name.index k1 = n1 ↔
            CommandLineOptions_Mode_value.index n1 = k1)) ∧
      (ServerInfo_State_name.keys =
          {ServerInfo_LIVE, ServerInfo_DRAINING, ServerInfo_PRE_INITIALIZING,
            ServerInfo_INITIALIZING} ∧
        CommandLineOptions_IpVersion_name.keys =
          {CommandLineOptions_v4, CommandLineOptions_v6} ∧
        CommandLineOptions_Mode_name.keys =
          {CommandLineOptions_Serve, CommandLineOptions_Validate,
            CommandLineOptions_InitOnly}) ∧
      (ServerInfo_State_name.lookup ServerInfo_LIVE = some "LIVE" ∧
        ServerInfo_State_name.lookup ServerInfo_DRAINING = some "DRAINING" ∧
        ServerInfo_State_name.lookup ServerInfo_PRE_INITIALIZING = some "PRE_INITIALIZING" ∧
        ServerInfo_State_name.lookup ServerInfo_INITIALIZING = some "INITIALIZING" ∧
        CommandLineOptions_IpVersion_name.lookup CommandLineOptions_v4 = some "v4" ∧
        CommandLineOptions_IpVersion_name.lookup CommandLineOptions_v6 = some "v6" ∧
        CommandLineOptions_Mode_name.lookup CommandLineOptions_Serve = some "Serve" ∧
        CommandLineOptions_Mode_name.lookup CommandLineOptions_Validate = some "Validate" ∧
        CommandLineOptions_Mode_name.lookup CommandLineOptions_InitOnly = some "InitOnly") :=
  ⟨tables_inverse _ _ (by decide) (by decide) k n,
    tables_inverse _ _ (by decide) (by decide) k n,
    tables_inverse _ _ (by decide) (by decide) k n,
    ⟨by decide, by decide, by decide⟩, ⟨by decide, by decide, by decide⟩, by decide⟩

/-- C17 fails for the plain reads: the read of a string that is no name gives
zero from the value table, the number of LIVE, while the name table read at
zero gives LIVE and not that string; and the read of a number that is no key
gives the empty string from the name table, while the value table read at the
empty string gives zero and not that number. -/
theorem enum_tables_zero_reads :
    ¬ (ServerInfo_State_name.index 0 = "UNKNOWN" ↔
        ServerInfo_State_value.index "UNKNOWN" = 0) ∧
      ServerInfo_State_value.index "UNKNOWN" = 0 ∧
      ServerInfo_State_name.index 0 = "LIVE" ∧
      ¬ (ServerInfo_State_name.index 7 = "" ↔ ServerInfo_State_value.index "" = 7) ∧
      ServerInfo_State_name.index 7 = "" ∧
      ServerInfo_State_value.index "" = 0 := by
  decide

/-! ## Getters -/

/-- C18: on a nil ServerInfo pointer every getter returns the zero value of
its field type, on a non-nil one it returns the field, and the chained call
GetCommandLineOptions().GetMode() returns CommandLineOptions_Serve on a nil
pointer and on a message without options, and the mode of the options
otherwise; every getter is a total function. -/
theorem getters_nil_safe (D : Type) (x : ServerInfo D) (c : CommandLineOptions D) :
    (ServerInfo.GetVersion (none : Option (ServerInfo D)) = "" ∧
        ServerInfo.GetState (none : Option (ServerInfo D)) = ServerInfo_LIVE ∧
        ServerInfo.GetUptimeCurrentEpoch (none : Option (ServerInfo D)) = none ∧
        ServerInfo.GetUptimeAllEpochs (none : Option (ServerInfo D)) = none ∧
        ServerInfo.GetHotRestartVersion (none : Option (ServerInfo D)) = "" ∧
        ServerInfo.GetCommandLineOptions (none : Option (ServerInfo D)) = none) ∧
      (ServerInfo.GetVersion (some x) = x.Version ∧
        ServerInfo.GetState (some x) = x.State ∧
        ServerInfo.GetUptimeCurrentEpoch (some x) = x.UptimeCurrentEpoch ∧
        ServerInfo.GetUptimeAllEpochs (some x) = x.UptimeAllEpochs ∧
        ServerInfo.GetHotRestartVersion (some x) = x.HotRestartVersion ∧
        ServerInfo.GetCommandLineOptions (some x) = x.CommandLineOptions) ∧
      (CommandLineOptions.GetMode (none : Option (CommandLineOptions D)) =
          CommandLineOptions_Serve ∧
        CommandLineOptions.GetMode (some c) = c.Mode) ∧
      CommandLineOptions.GetMode
          (ServerInfo.GetCommandLineOptions (none : Option (ServerInfo D))) =
        CommandLineOptions_Serve ∧
      CommandLineOptions.GetMode
          (ServerInfo.GetCommandLineOptions (some { x with CommandLineOptions := none })) =
        CommandLineOptions_Serve ∧
      CommandLineOptions.GetMode
          (ServerInfo.GetCommandLineOptions (some (zeroServerInfo : ServerInfo D))) =
        CommandLineOptions_Serve ∧
      CommandLineOptions.GetMode
          (ServerInfo.GetCommandLineOptions (some { x with CommandLineOptions := some c })) =
        c.Mode :=
  ⟨⟨rfl, rfl, rfl, rfl, rfl, rfl⟩, ⟨rfl, rfl, rfl, rfl, rfl, rfl⟩, ⟨rfl, rfl⟩,
    rfl, rfl, rfl, rfl⟩

end envoy_admin_v4alpha
